import Mathlib

/-!
Shallow embedding of `src/components/ui/provider_portal.tsx` (ProviderPortalApp).

The program is a client-side React dashboard.  Its data core consists of the
types `Offer`, `ChatMessage`, `Conversation`, the state mutators `updateOffer`,
`sendMessage` (appendMessage), `openChatFor` (selectConversationByHolder),
the derived views (offer filter, dashboard aggregates, report aggregates,
active-conversation resolution) and the pure `exportCSV` serializer.

Modelling conventions:
* JS numbers are embedded as exact rationals `ℚ` (the program performs only
  additions, divisions and `Math.round` on small values).
* JS strings are Lean `String`s; `toLowerCase`/`trim` are embedded over the
  character list (`String.data`) so that concrete instances evaluate in the
  kernel.  Only ASCII data occurs in this program.
* `Math.random()`-generated ids and `Date.now()` timestamps are passed as
  explicit parameters to the operations that the source derives them in.
* React `setX` state updates become explicit state-passing: each mutator maps
  an input collection (or `AppState`) to the updated one.  The
  `localStorage` persistence side effect carries no data-model content and is
  not part of the embedded state.
-/

/-- Route type of the app shell (`type Route = "login" | ... | "profile"`). -/
inductive Route where
  | login | dashboard | offers | messages | reports | profile
  deriving DecidableEq

/-- Offer status (`type OfferStatus = "pending" | "accepted" | "declined"`). -/
inductive OfferStatus where
  | pending | accepted | declined
  deriving DecidableEq

/-- Offer record (`type Offer`), `note?: string` as `Option String`. -/
structure Offer where
  id : String
  projectTitle : String
  holderName : String
  budget : ℚ
  timelineMonths : ℚ
  technology : String
  receivedAt : String
  status : OfferStatus
  note : Option String := none
  deriving DecidableEq

/-- Message author (`from: "provider" | "holder"`). -/
inductive Sender where
  | provider | holder
  deriving DecidableEq

/-- Chat message (`type ChatMessage`); the source field names `from` and `at`
are Lean keywords and are quoted. -/
structure ChatMessage where
  id : String
  «from» : Sender
  body : String
  «at» : String
  deriving DecidableEq

/-- Conversation thread (`type Conversation`). -/
structure Conversation where
  id : String
  holderName : String
  holderInitials : String
  projectTitle : String
  lastSeenAt : String
  messages : List ChatMessage
  deriving DecidableEq

/-- Partial offer patch (`Partial<Offer>` as used by `updateOffer`): each
field optionally present. -/
structure OfferPatch where
  id : Option String := none
  projectTitle : Option String := none
  holderName : Option String := none
  budget : Option ℚ := none
  timelineMonths : Option ℚ := none
  technology : Option String := none
  receivedAt : Option String := none
  status : Option OfferStatus := none
  note : Option (Option String) := none
  deriving DecidableEq

/-- JS object spread `{ ...o, ...next }`: fields present in the patch override
the record. -/
def applyPatch (o : Offer) (p : OfferPatch) : Offer :=
  { id := p.id.getD o.id
    projectTitle := p.projectTitle.getD o.projectTitle
    holderName := p.holderName.getD o.holderName
    budget := p.budget.getD o.budget
    timelineMonths := p.timelineMonths.getD o.timelineMonths
    technology := p.technology.getD o.technology
    receivedAt := p.receivedAt.getD o.receivedAt
    status := p.status.getD o.status
    note := p.note.getD o.note }

/-- Patch `{ status: s }` (what `setStatusFor` and the dialog buttons pass). -/
def statusPatch (s : OfferStatus) : OfferPatch := { status := some s }

/-- Source `updateOffer`:
`setOffers((prev) => prev.map((o) => (o.id === id ? { ...o, ...next } : o)))`. -/
def updateOffer (offers : List Offer) (id : String) (next : OfferPatch) :
    List Offer :=
  offers.map fun o => if o.id = id then applyPatch o next else o

/-- Seed offer `OF-1029` of `seedOffers`. -/
def seedOffer1029 : Offer :=
  { id := "OF-1029"
    projectTitle := "Smart City Kiosk Network"
    holderName := "NEO Holdings"
    budget := 1850000
    timelineMonths := 6
    technology := "IoT Integration"
    receivedAt := "2025-08-03"
    status := OfferStatus.pending
    note := some "Looking for end-to-end provider with proven SLA." }

/-- Seed offer `OF-1034` of `seedOffers`. -/
def seedOffer1034 : Offer :=
  { id := "OF-1034"
    projectTitle := "Cloud Migration – Municipal Services"
    holderName := "Jeddah Municipality"
    budget := 2200000
    timelineMonths := 8
    technology := "Cloud Solutions"
    receivedAt := "2025-08-12"
    status := OfferStatus.accepted }

/-- Seed offer `OF-1039` of `seedOffers`. -/
def seedOffer1039 : Offer :=
  { id := "OF-1039"
    projectTitle := "Mobile App – Citizen Portal"
    holderName := "Najm Tech"
    budget := 640000
    timelineMonths := 4
    technology := "Mobile Development"
    receivedAt := "2025-08-18"
    status := OfferStatus.pending }

/-- Seed offer `OF-1042` of `seedOffers`. -/
def seedOffer1042 : Offer :=
  { id := "OF-1042"
    projectTitle := "Factory Telemetry Retrofit"
    holderName := "Al Noor Steel"
    budget := 930000
    timelineMonths := 5
    technology := "IoT Integration"
    receivedAt := "2025-08-22"
    status := OfferStatus.declined }

/-- Source `seedOffers` array. -/
def seedOffers : List Offer :=
  [seedOffer1029, seedOffer1034, seedOffer1039, seedOffer1042]

/-- Claim C1: for every offer `o` present in the offers collection and every
status `s`, `updateOffer(o.id, {status: s})` yields a collection in which any
position holding an offer with id `o.id` now has `status = s` with all other
fields unchanged, and every offer with a different id is unchanged; the
collection length is preserved. -/
theorem updateOffer_status_spec
    (offers : List Offer) (o : Offer) (s : OfferStatus) (ho : o ∈ offers) :
    (updateOffer offers o.id (statusPatch s)).length = offers.length ∧
    ∀ i : Nat, ∀ e : Offer, offers[i]? = some e →
      ∃ e' : Offer, (updateOffer offers o.id (statusPatch s))[i]? = some e' ∧
        (e.id = o.id →
          e'.id = e.id ∧ e'.status = s ∧ e'.projectTitle = e.projectTitle ∧
          e'.holderName = e.holderName ∧ e'.budget = e.budget ∧
          e'.timelineMonths = e.timelineMonths ∧
          e'.technology = e.technology ∧
          e'.receivedAt = e.receivedAt ∧ e'.note = e.note) ∧
        (e.id ≠ o.id → e' = e) := by
  refine ⟨by simp [updateOffer], ?_⟩
  intro i e he
  refine ⟨if e.id = o.id then applyPatch e (statusPatch s) else e, ?_, ?_, ?_⟩
  · simp [updateOffer, List.getElem?_map, he]
  · intro hid
    simp [hid, applyPatch, statusPatch]
  · intro hid
    simp [hid]

/-- Witness for C1 at the seed data: `OF-1029` is present, and updating its
status preserves the collection length. -/
theorem updateOffer_status_spec_witness :
    seedOffer1029 ∈ seedOffers ∧
    (updateOffer seedOffers seedOffer1029.id
        (statusPatch OfferStatus.accepted)).length = seedOffers.length :=
  ⟨by decide,
    (updateOffer_status_spec seedOffers seedOffer1029 OfferStatus.accepted
      (by decide)).1⟩

/-- Claim C2: for every id matching no offer and every patch, `updateOffer`
leaves the offers collection structurally unchanged. -/
theorem updateOffer_missing_id_noop
    (offers : List Offer) (id : String) (next : OfferPatch)
    (h : ∀ o ∈ offers, o.id ≠ id) :
    updateOffer offers id next = offers := by
  induction offers with
  | nil => rfl
  | cons o rest ih =>
      have ho : o.id ≠ id := h o (List.mem_cons_self o rest)
      have hrest : ∀ o' ∈ rest, o'.id ≠ id := fun o' ho' =>
        h o' (List.mem_cons_of_mem o ho')
      simpa [updateOffer, ho] using ih hrest

/-- Witness for C2: updating the absent id `OF-9999` on the seed offers is a
no-op. -/
theorem updateOffer_missing_id_noop_witness :
    (∀ o ∈ seedOffers, o.id ≠ "OF-9999") ∧
    updateOffer seedOffers "OF-9999" (statusPatch OfferStatus.declined) =
      seedOffers :=
  ⟨by decide,
    updateOffer_missing_id_noop seedOffers "OF-9999"
      (statusPatch OfferStatus.declined) (by decide)⟩

/-- Helper: mapping an if-rewrite over a list in which no element satisfies
the test is the identity (shared by the no-op parts of the mutators). -/
theorem map_ite_id {α : Type} (l : List α) (q : α → Prop) [DecidablePred q]
    (f : α → α) (h : ∀ a ∈ l, ¬ q a) :
    (l.map fun a => if q a then f a else a) = l := by
  induction l with
  | nil => rfl
  | cons a t ih =>
      have ha : ¬ q a := h a (List.mem_cons_self a t)
      have ht : ∀ b ∈ t, ¬ q b := fun b hb => h b (List.mem_cons_of_mem a hb)
      simp [ha, ih ht]

/-- Helper: `find?` returns the first matching element; stated via an
explicit decomposition into a non-matching front part and the match. -/
theorem find?_first {α : Type} (p : α → Bool) (pre : List α) (x : α)
    (post : List α) (hpre : ∀ y ∈ pre, p y = false) (hx : p x = true) :
    List.find? p (pre ++ x :: post) = some x := by
  induction pre with
  | nil => simp [List.find?_cons, hx]
  | cons y t ih =>
      have hy : p y = false := hpre y (List.mem_cons_self y t)
      have ht : ∀ z ∈ t, p z = false := fun z hz =>
        hpre z (List.mem_cons_of_mem y hz)
      simp [List.find?_cons, hy, ih ht]

/-- Message constructed by `sendMessage`:
`{ id: Math.random().toString(36).slice(2), from: "provider", body, at: new
Date().toISOString() }`; the random id and the timestamp are parameters. -/
def mkProviderMessage (newId now body : String) : ChatMessage :=
  { id := newId, «from» := Sender.provider, body := body, «at» := now }

/-- Source `sendMessage` (the spec's `appendMessage`):
`setConversations((prev) => prev.map((c) => (c.id === convId ? { ...c,
messages: [...c.messages, msg] } : c)))`. -/
def sendMessage (convs : List Conversation) (convId : String) (body : String)
    (newId now : String) : List Conversation :=
  convs.map fun c =>
    if c.id = convId then
      { c with messages := c.messages ++ [mkProviderMessage newId now body] }
    else c

/-- Seed conversation `C-101`; `lastSeenAt` and the two message timestamps
(`now`, `now - 60min`, `now - 45min`) are parameters. -/
def seedConv101 (t1 tm60 tm45 : String) : Conversation :=
  { id := "C-101"
    holderName := "NEO Holdings"
    holderInitials := "NH"
    projectTitle := "Smart City Kiosk Network"
    lastSeenAt := t1
    messages :=
      [ { id := "m1", «from» := Sender.holder
          body := "Hi, could you share rough milestones for the kiosk rollout?"
          «at» := tm60 }
      , { id := "m2", «from» := Sender.provider
          body := "Absolutely. Drafting a 3-phase plan: survey, pilot, scale."
          «at» := tm45 } ] }

/-- Seed conversation `C-102`; `lastSeenAt` and the message timestamp
(`now`, `now - 120min`) are parameters. -/
def seedConv102 (t2 tm120 : String) : Conversation :=
  { id := "C-102"
    holderName := "Jeddah Municipality"
    holderInitials := "JM"
    projectTitle := "Cloud Migration – Municipal Services"
    lastSeenAt := t2
    messages :=
      [ { id := "m1", «from» := Sender.holder
          body := "We need RTO <= 30 minutes across regions."
          «at» := tm120 } ] }

/-- Source `seedConversations` array; the five `Date`-derived timestamps are
parameters. -/
def seedConversations (t1 t2 tm60 tm45 tm120 : String) : List Conversation :=
  [seedConv101 t1 tm60 tm45, seedConv102 t2 tm120]

/-- Claim C3: `sendMessage` appends exactly one provider message with the
given body, fresh id and current timestamp to the matching conversation,
preserving all prior messages (order and content) and all other fields and
conversations; when no conversation has the id it is a no-op. -/
theorem sendMessage_spec
    (convs : List Conversation) (convId body newId now : String)
    (hfresh : ∀ c ∈ convs, ∀ m ∈ c.messages, m.id ≠ newId) :
    (sendMessage convs convId body newId now).length = convs.length ∧
    (∀ i : Nat, ∀ c : Conversation, convs[i]? = some c →
      ∃ c', (sendMessage convs convId body newId now)[i]? = some c' ∧
        (c.id = convId →
          c'.id = c.id ∧ c'.holderName = c.holderName ∧
          c'.holderInitials = c.holderInitials ∧
          c'.projectTitle = c.projectTitle ∧ c'.lastSeenAt = c.lastSeenAt ∧
          c'.messages.length = c.messages.length + 1 ∧
          (∀ j : Nat, j < c.messages.length →
            c'.messages[j]? = c.messages[j]?) ∧
          c'.messages[c.messages.length]? =
            some (mkProviderMessage newId now body) ∧
          (mkProviderMessage newId now body).«from» = Sender.provider ∧
          (mkProviderMessage newId now body).body = body ∧
          (mkProviderMessage newId now body).«at» = now ∧
          ∀ m ∈ c.messages, m.id ≠ (mkProviderMessage newId now body).id) ∧
        (c.id ≠ convId → c' = c)) ∧
    ((∀ c ∈ convs, c.id ≠ convId) →
      sendMessage convs convId body newId now = convs) := by
  refine ⟨by simp [sendMessage], ?_, ?_⟩
  · intro i c hc
    have hmem : c ∈ convs := by
      obtain ⟨hlt, rfl⟩ := List.getElem?_eq_some.mp hc
      exact List.getElem_mem hlt
    refine ⟨if c.id = convId then
        { c with messages := c.messages ++ [mkProviderMessage newId now body] }
      else c, ?_, ?_, ?_⟩
    · simp [sendMessage, List.getElem?_map, hc]
    · intro hid
      refine ⟨by simp [hid], by simp [hid], by simp [hid], by simp [hid],
        by simp [hid], by simp [hid], ?_, ?_, rfl, rfl, rfl, ?_⟩
      · intro j hj
        simp [hid, List.getElem?_append, hj]
      · simp [hid, List.getElem?_concat_length]
      · intro m hm
        exact hfresh c hmem m hm
    · intro hid
      simp [hid]
  · intro hnone
    exact map_ite_id convs (fun c => c.id = convId) _
      fun c hc => hnone c hc

/-- Witness for C3 at the seed conversations: the fresh id `zz9x` occurs in
no seed message, and sending to `C-101` preserves the collection length. -/
theorem sendMessage_spec_witness :
    (∀ c ∈ seedConversations "t1" "t2" "t3" "t4" "t5", ∀ m ∈ c.messages,
      m.id ≠ "zz9x") ∧
    (sendMessage (seedConversations "t1" "t2" "t3" "t4" "t5") "C-101"
        "Sounds good." "zz9x" "t6").length =
      (seedConversations "t1" "t2" "t3" "t4" "t5").length :=
  ⟨by decide,
    (sendMessage_spec (seedConversations "t1" "t2" "t3" "t4" "t5") "C-101"
      "Sounds good." "zz9x" "t6" (by decide)).1⟩

/-- Source active-conversation resolution in `MessagesPage`:
`const current = conversations.find((c) => c.id === selectedId) ??
conversations[0]`.  A `null` selection (`none`) matches no conversation. -/
def activeConversation (convs : List Conversation) (sel : Option String) :
    Option Conversation :=
  (convs.find? fun c => decide (sel = some c.id)).orElse fun _ => convs.head?

/-- Claim C7: active-conversation resolution returns the first conversation
whose id equals the selection when one exists, otherwise the first
conversation of the collection, and yields `none` exactly when the
collection is empty. -/
theorem activeConversation_spec
    (convs : List Conversation) (sel : Option String) :
    (∀ i : String, ∀ pre c post, sel = some i →
      convs = pre ++ c :: post → c.id = i → (∀ c' ∈ pre, c'.id ≠ i) →
      activeConversation convs sel = some c) ∧
    ((∀ c ∈ convs, sel ≠ some c.id) →
      activeConversation convs sel = convs.head?) ∧
    (activeConversation convs sel = none ↔ convs = []) := by
  refine ⟨?_, ?_, ?_⟩
  · intro i pre c post hsel hsplit hid hpre
    have hfind : convs.find? (fun c => decide (sel = some c.id)) = some c := by
      subst hsplit
      refine find?_first _ pre c post (fun y hy => ?_) (by simp [hsel, hid])
      rw [hsel]
      simp only [decide_eq_false_iff_not, Option.some.injEq]
      exact fun h => hpre y hy h.symm
    simp [activeConversation, hfind, Option.orElse]
  · intro hnone
    have hfind : convs.find? (fun c => decide (sel = some c.id)) = none := by
      rw [List.find?_eq_none]
      intro c hc
      simp [hnone c hc]
    simp [activeConversation, hfind, Option.orElse]
  · constructor
    · intro hres
      cases hfind : convs.find? (fun c => decide (sel = some c.id)) with
      | some c => simp [activeConversation, hfind, Option.orElse] at hres
      | none =>
          have : convs.head? = none := by
            simpa [activeConversation, hfind, Option.orElse] using hres
          exact List.head?_eq_none_iff.mp this
    · intro h
      subst h
      rfl

/-- Witness for C7: on the seed conversations with the stale selection
`C-999`, resolution falls back to the first conversation. -/
theorem activeConversation_spec_witness :
    (∀ c ∈ seedConversations "t1" "t2" "t3" "t4" "t5",
      (some "C-999" : Option String) ≠ some c.id) ∧
    activeConversation (seedConversations "t1" "t2" "t3" "t4" "t5")
        (some "C-999") =
      (seedConversations "t1" "t2" "t3" "t4" "t5").head? :=
  ⟨by decide,
    (activeConversation_spec (seedConversations "t1" "t2" "t3" "t4" "t5")
      (some "C-999")).2.1 (by decide)⟩

/-- Application state of `ProviderPortalApp` (the React `useState` cells). -/
structure AppState where
  route : Route
  email : String
  offers : List Offer
  conversations : List Conversation
  selectedConversationId : Option String
  deriving DecidableEq

/-- Source `openChatFor` (the spec's `selectConversationByHolder`):
`const conv = conversations.find((c) => c.holderName === holderName);
if (conv) { setSelectedConversationId(conv.id); setRoute("messages"); }`. -/
def openChatFor (holderName : String) (st : AppState) : AppState :=
  match st.conversations.find? fun c => decide (c.holderName = holderName) with
  | some conv =>
      { st with selectedConversationId := some conv.id
                route := Route.messages }
  | none => st

/-- Claim C8: `openChatFor` selects the first conversation of the given
holder and routes to `messages`; with no matching holder it leaves the state
unchanged; on the seed data, `NEO Holdings` selects `C-101`. -/
theorem openChatFor_spec (holderName : String) (st : AppState) :
    (∀ pre conv post, st.conversations = pre ++ conv :: post →
      conv.holderName = holderName →
      (∀ c ∈ pre, c.holderName ≠ holderName) →
      openChatFor holderName st =
        { st with selectedConversationId := some conv.id
                  route := Route.messages }) ∧
    ((∀ c ∈ st.conversations, c.holderName ≠ holderName) →
      openChatFor holderName st = st) ∧
    (∀ t1 t2 t3 t4 t5 : String,
      st.conversations = seedConversations t1 t2 t3 t4 t5 →
      (openChatFor "NEO Holdings" st).selectedConversationId = some "C-101" ∧
      (openChatFor "NEO Holdings" st).route = Route.messages) := by
  refine ⟨?_, ?_, ?_⟩
  · intro pre conv post hsplit hconv hpre
    have hfind : st.conversations.find?
        (fun c => decide (c.holderName = holderName)) = some conv := by
      rw [hsplit]
      exact find?_first _ pre conv post
        (fun y hy => by simp [hpre y hy]) (by simp [hconv])
    simp [openChatFor, hfind]
  · intro hnone
    have hfind : st.conversations.find?
        (fun c => decide (c.holderName = holderName)) = none := by
      rw [List.find?_eq_none]
      intro c hc
      simp [hnone c hc]
    simp [openChatFor, hfind]
  · intro t1 t2 t3 t4 t5 hconvs
    have hfind : st.conversations.find?
        (fun c => decide (c.holderName = "NEO Holdings")) =
        some (seedConv101 t1 t3 t4) := by
      rw [hconvs]
      simp [seedConversations, seedConv101, List.find?_cons]
    constructor
    · simp [openChatFor, hfind, seedConv101]
    · simp [openChatFor, hfind]

/-- Witness for C8: a concrete state carrying the seed conversations; an
unknown holder is a no-op and the seed scenario selects `C-101`. -/
theorem openChatFor_spec_witness :
    (∀ c ∈ (AppState.mk Route.offers "provider@example.com" seedOffers
        (seedConversations "t1" "t2" "t3" "t4" "t5") none).conversations,
      c.holderName ≠ "Unknown Co") ∧
    openChatFor "Unknown Co"
        (AppState.mk Route.offers "provider@example.com" seedOffers
          (seedConversations "t1" "t2" "t3" "t4" "t5") none) =
      AppState.mk Route.offers "provider@example.com" seedOffers
        (seedConversations "t1" "t2" "t3" "t4" "t5") none ∧
    (openChatFor "NEO Holdings"
        (AppState.mk Route.offers "provider@example.com" seedOffers
          (seedConversations "t1" "t2" "t3" "t4" "t5")
          none)).selectedConversationId = some "C-101" :=
  ⟨by decide,
    (openChatFor_spec "Unknown Co"
      (AppState.mk Route.offers "provider@example.com" seedOffers
        (seedConversations "t1" "t2" "t3" "t4" "t5") none)).2.1 (by decide),
    ((openChatFor_spec "NEO Holdings"
      (AppState.mk Route.offers "provider@example.com" seedOffers
        (seedConversations "t1" "t2" "t3" "t4" "t5") none)).2.2
      "t1" "t2" "t3" "t4" "t5" rfl).1⟩

/-- JS `Math.round` on a nonnegative-or-any rational: round half toward
positive infinity, i.e. `⌊x + 1/2⌋`. -/
def jsRound (x : ℚ) : ℤ := ⌊x + 1/2⌋

/-- Dashboard count `accepted` (`offers.filter((o) => o.status ===
"accepted").length`). -/
def acceptedCount (offers : List Offer) : ℕ :=
  (offers.filter fun o => decide (o.status = OfferStatus.accepted)).length

/-- Dashboard count `pending`. -/
def pendingCount (offers : List Offer) : ℕ :=
  (offers.filter fun o => decide (o.status = OfferStatus.pending)).length

/-- Dashboard count `declined`. -/
def declinedCount (offers : List Offer) : ℕ :=
  (offers.filter fun o => decide (o.status = OfferStatus.declined)).length

/-- Dashboard `acceptanceRate = total ? Math.round((accepted / total) * 100)
: 0` where `total = offers.length`. -/
def acceptanceRate (offers : List Offer) : ℤ :=
  if offers.length = 0 then 0
  else jsRound ((acceptedCount offers : ℚ) / (offers.length : ℚ) * 100)

/-- Reports `successRate = offers.length ? Math.round((offers.filter((o) =>
o.status === "accepted").length / offers.length) * 100) : 0`. -/
def successRate (offers : List Offer) : ℤ :=
  if offers.length = 0 then 0
  else jsRound
    (((offers.filter fun o => decide (o.status = OfferStatus.accepted)).length
      : ℚ) / (offers.length : ℚ) * 100)

/-- Claim C5: dashboard `acceptanceRate` and reports `successRate` agree,
equal `round(accepted / total * 100)` for nonempty collections and `0` for
the empty one, stay within `[0, 100]`, and the status pattern
`[pending, accepted, pending, declined]` yields `total = 4, accepted = 1,
pending = 2, declined = 1, acceptanceRate = 25`. -/
theorem acceptanceRate_spec :
    (∀ offers : List Offer, successRate offers = acceptanceRate offers) ∧
    acceptanceRate [] = 0 ∧
    (∀ offers : List Offer,
      0 ≤ acceptanceRate offers ∧ acceptanceRate offers ≤ 100) ∧
    (∀ offers : List Offer, offers.length ≠ 0 →
      acceptanceRate offers =
        jsRound ((acceptedCount offers : ℚ) / (offers.length : ℚ) * 100)) ∧
    (∀ offers : List Offer,
      offers.map Offer.status =
        [OfferStatus.pending, OfferStatus.accepted, OfferStatus.pending,
          OfferStatus.declined] →
      offers.length = 4 ∧ acceptedCount offers = 1 ∧
      pendingCount offers = 2 ∧ declinedCount offers = 1 ∧
      acceptanceRate offers = 25) := by
  refine ⟨fun _ => rfl, rfl, ?_, ?_, ?_⟩
  · intro offers
    unfold acceptanceRate
    by_cases h : offers.length = 0
    · simp [h]
    · simp only [h, if_false]
      have ht : (0:ℚ) < (offers.length : ℚ) := by
        exact_mod_cast Nat.pos_of_ne_zero h
      have ha : (acceptedCount offers : ℚ) ≤ (offers.length : ℚ) := by
        exact_mod_cast List.length_filter_le _ offers
      have ha0 : (0:ℚ) ≤ (acceptedCount offers : ℚ) := by positivity
      have hx0 : (0:ℚ) ≤ (acceptedCount offers : ℚ) / (offers.length : ℚ)
          * 100 := by positivity
      have hx1 : (acceptedCount offers : ℚ) / (offers.length : ℚ) * 100
          ≤ 100 := by
        have hb : (acceptedCount offers : ℚ) / (offers.length : ℚ) ≤ 1 :=
          (div_le_one ht).mpr ha
        nlinarith
      constructor
      · exact Int.le_floor.mpr (by push_cast; linarith)
      · calc jsRound ((acceptedCount offers : ℚ) / (offers.length : ℚ) * 100)
            ≤ ⌊(201 : ℚ)/2⌋ := Int.floor_mono (by linarith)
          _ = 100 := by norm_num
  · intro offers h
    simp [acceptanceRate, h]
  · intro offers h
    cases offers with
    | nil => simp at h
    | cons o1 t1 =>
    cases t1 with
    | nil => simp at h
    | cons o2 t2 =>
    cases t2 with
    | nil => simp at h
    | cons o3 t3 =>
    cases t3 with
    | nil => simp at h
    | cons o4 t4 =>
    cases t4 with
    | cons o5 t5 => simp at h
    | nil =>
      simp only [List.map_cons, List.map_nil, List.cons.injEq, and_true]
        at h
      obtain ⟨h1, h2, h3, h4⟩ := h
      refine ⟨rfl, ?_, ?_, ?_, ?_⟩
      · simp [acceptedCount, List.filter_cons, h1, h2, h3, h4]
      · simp [pendingCount, List.filter_cons, h1, h2, h3, h4]
      · simp [declinedCount, List.filter_cons, h1, h2, h3, h4]
      · have hc : acceptedCount [o1, o2, o3, o4] = 1 := by
          simp [acceptedCount, List.filter_cons, h1, h2, h3, h4]
        rw [acceptanceRate, hc]
        norm_num [jsRound]

/-- Witness for C5: the seed offers realize the scenario statuses, the
nonempty-rate formula applies, and the rate is 25. -/
theorem acceptanceRate_spec_witness :
    (seedOffers.map Offer.status =
      [OfferStatus.pending, OfferStatus.accepted, OfferStatus.pending,
        OfferStatus.declined]) ∧
    seedOffers.length ≠ 0 ∧
    acceptanceRate seedOffers =
      jsRound ((acceptedCount seedOffers : ℚ) / (seedOffers.length : ℚ)
        * 100) ∧
    acceptanceRate seedOffers = 25 :=
  ⟨by decide, by decide,
    acceptanceRate_spec.2.2.2.1 seedOffers (by decide),
    (acceptanceRate_spec.2.2.2.2 seedOffers (by decide)).2.2.2.2⟩

/-- Reports `revenue = offers.filter((o) => o.status ===
"accepted").reduce((acc, o) => acc + o.budget, 0)`. -/
def revenue (offers : List Offer) : ℚ :=
  (offers.filter fun o => decide (o.status = OfferStatus.accepted)).foldl
    (fun acc o => acc + o.budget) 0

/-- JS `Number.prototype.toFixed(1)` on an exact rational: the nearest
multiple of `1/10`, ties toward the larger value. -/
def toFixed1 (x : ℚ) : ℚ := (jsRound (x * 10) : ℚ) / 10

/-- Reports `avgDuration = offers.length ? (offers.reduce((acc, o) => acc +
o.timelineMonths, 0) / offers.length).toFixed(1) : "0"`; the display string
is embedded as its numeric value, `"0"` as `0`. -/
def avgDuration (offers : List Offer) : ℚ :=
  if offers.length = 0 then 0
  else toFixed1
    ((offers.foldl (fun acc o => acc + o.timelineMonths) 0)
      / (offers.length : ℚ))

/-- Helper: left fold of additions of a projected field equals the initial
value plus the sum of the projections. -/
theorem foldl_add_map {α : Type} (f : α → ℚ) (l : List α) (a : ℚ) :
    l.foldl (fun acc x => acc + f x) a = a + (l.map f).sum := by
  induction l generalizing a with
  | nil => simp
  | cons x t ih =>
      rw [List.foldl_cons, ih]
      simp [List.sum_cons]
      ring

/-- Claim C6: `revenue` is the sum of the budgets of the accepted offers
(`0` when there are none), and `avgDuration` is the mean of
`timelineMonths` rounded to one decimal place, `0` (the string `"0"`) for
the empty collection. -/
theorem reportAggregates_spec :
    (∀ offers : List Offer,
      revenue offers =
        ((offers.filter fun o => decide (o.status = OfferStatus.accepted)).map
          Offer.budget).sum) ∧
    (∀ offers : List Offer, (∀ o ∈ offers, o.status ≠ OfferStatus.accepted) →
      revenue offers = 0) ∧
    avgDuration [] = 0 ∧
    (∀ offers : List Offer, offers ≠ [] →
      avgDuration offers =
        toFixed1 ((offers.map Offer.timelineMonths).sum
          / (offers.length : ℚ))) := by
  refine ⟨?_, ?_, rfl, ?_⟩
  · intro offers
    rw [revenue, foldl_add_map Offer.budget]
    ring
  · intro offers h
    have hf : offers.filter
        (fun o => decide (o.status = OfferStatus.accepted)) = [] := by
      rw [List.filter_eq_nil_iff]
      intro o ho
      simp [h o ho]
    rw [revenue, hf]
    rfl
  · intro offers h
    have hl : offers.length ≠ 0 := by
      simpa [List.length_eq_zero] using h
    rw [avgDuration, if_neg hl, foldl_add_map Offer.timelineMonths]
    ring_nf

/-- Witness for C6: no offer in a declined-only list is accepted so its
revenue is 0, and the nonempty seed offers satisfy the mean formula. -/
theorem reportAggregates_spec_witness :
    (∀ o ∈ [seedOffer1042], o.status ≠ OfferStatus.accepted) ∧
    revenue [seedOffer1042] = 0 ∧
    seedOffers ≠ [] ∧
    avgDuration seedOffers =
      toFixed1 ((seedOffers.map Offer.timelineMonths).sum
        / (seedOffers.length : ℚ)) :=
  ⟨by decide, reportAggregates_spec.2.1 [seedOffer1042] (by decide),
    by decide, reportAggregates_spec.2.2.2 seedOffers (by decide)⟩

/-- JS `String.prototype.toLowerCase` on the ASCII data this program uses:
lower-case each character. -/
def jsToLower (s : String) : String := String.mk (s.data.map Char.toLower)

/-- JS `String.prototype.trim`: drop whitespace from both ends. -/
def jsTrim (s : String) : String :=
  String.mk
    (((s.data.dropWhile Char.isWhitespace).reverse.dropWhile
      Char.isWhitespace).reverse)

/-- JS `String.prototype.includes` over character lists: `q` occurs
contiguously inside the second argument. -/
def hasInfix (q : List Char) : List Char → Bool
  | [] => q.isEmpty
  | c :: t => q.isPrefixOf (c :: t) || hasInfix q t

/-- JS `s.includes(q)`. -/
def strIncludes (s q : String) : Bool := hasInfix q.data s.data

/-- Search haystack of the offers page:
`[o.projectTitle, o.holderName, o.technology, o.id].join(" ").toLowerCase()`. -/
def offerHaystack (o : Offer) : String :=
  jsToLower
    (String.intercalate " " [o.projectTitle, o.holderName, o.technology, o.id])

/-- Status filter state of `OffersPage` (`OfferStatus | "all"`). -/
inductive StatusFilter where
  | all
  | only (s : OfferStatus)
  deriving DecidableEq

/-- Status test of the source chain:
`status === "all" ? true : o.status === status`. -/
def statusMatches (f : StatusFilter) (o : Offer) : Bool :=
  match f with
  | StatusFilter.all => true
  | StatusFilter.only s => decide (o.status = s)

/-- Source `filtered` memo of `OffersPage`:
`const q = query.trim().toLowerCase(); offers.filter(status test).filter((o)
=> !q ? true : [..].join(" ").toLowerCase().includes(q))`. -/
def filteredOffers (offers : List Offer) (query : String) (f : StatusFilter) :
    List Offer :=
  let q := jsToLower (jsTrim query)
  (offers.filter fun o => statusMatches f o).filter fun o =>
    if q = "" then true else strIncludes (offerHaystack o) q

/-- Claim C4 taken literally: status matches (or `all`), and the haystack
contains the query itself — not the trimmed query — as a case-insensitive
substring; the empty query matches everything. -/
def claimFilteredLiteral (offers : List Offer) (query : String)
    (f : StatusFilter) : List Offer :=
  offers.filter fun o =>
    statusMatches f o &&
      (decide (query = "") || strIncludes (offerHaystack o) (jsToLower query))

/-- Counterexample to C4 as stated: for the query `"1029 "` (trailing
space) over the seed offers, the code trims the query and returns
`OF-1029`, while the literal claim finds no offer containing `"1029 "`. -/
theorem filteredOffers_claim_counterexample :
    filteredOffers seedOffers "1029 " StatusFilter.all ≠
      claimFilteredLiteral seedOffers "1029 " StatusFilter.all := by
  decide

/-- Helper: lower-casing a string yields the empty string exactly for the
empty string. -/
theorem jsToLower_eq_empty_iff (s : String) : jsToLower s = "" ↔ s = "" := by
  cases s with
  | mk data =>
      constructor
      · intro h
        have hmap : data.map Char.toLower = [] := congrArg String.data h
        have hnil : data = [] := List.map_eq_nil_iff.mp hmap
        rw [hnil]
      · intro h
        have hnil : data = [] := congrArg String.data h
        rw [hnil]
        rfl

/-- Claim C4 as amended: `filteredOffers` returns exactly the offers whose
status matches the filter (with `all` matching everything) and whose
haystack contains the trimmed query case-insensitively, a query that is
empty after trimming matching every offer, in source order. -/
theorem filteredOffers_amended_spec (offers : List Offer) (query : String)
    (f : StatusFilter) :
    filteredOffers offers query f =
      offers.filter fun o =>
        statusMatches f o &&
          (decide (jsTrim query = "") ||
            strIncludes (offerHaystack o) (jsToLower (jsTrim query))) := by
  rw [filteredOffers, List.filter_filter]
  refine List.filter_congr ?_
  intro o _
  by_cases hq : jsTrim query = ""
  · have hq2 : jsToLower (jsTrim query) = "" :=
      (jsToLower_eq_empty_iff (jsTrim query)).mpr hq
    rw [if_pos hq2]
    simp [hq]
  · have hq2 : jsToLower (jsTrim query) ≠ "" := fun h =>
      hq ((jsToLower_eq_empty_iff (jsTrim query)).mp h)
    rw [if_neg hq2]
    have hd : decide (jsTrim query = "") = false := by simp [hq]
    rw [hd]
    simp [Bool.and_comm]

/-- CSV cell value (`Record<string, string | number>`); the numbers the
program exports are integers. -/
inductive CsvValue where
  | str (s : String)
  | num (n : Int)
  deriving DecidableEq

/-- CSV row: field-name/value pairs in JS object insertion order; a missing
key (`r[h]` giving `undefined`) is a failed lookup. -/
abbrev CsvRow := List (String × CsvValue)

/-- JS `String(v ?? "")`: stringify the looked-up value, the missing value
becoming the empty string. -/
def csvStringOf : Option CsvValue → String
  | none => ""
  | some (CsvValue.str s) => s
  | some (CsvValue.num n) => toString n

/-- Source escape test `/[",\n]/.test(s)`. -/
def csvMustQuote (s : String) : Bool :=
  s.data.any fun c => c == ',' || c == '"' || c == '\n'

/-- Source `s.replace(/"/g, twoQuotes)`: double every double-quote. -/
def csvDupQuotes : List Char → List Char
  | [] => []
  | c :: t =>
      if c = '"' then '"' :: '"' :: csvDupQuotes t else c :: csvDupQuotes t

/-- Source `escape` of `exportCSV`: quote-wrap (doubling internal quotes)
exactly when the string contains a comma, double-quote or newline. -/
def csvEscape (s : String) : String :=
  if csvMustQuote s then "\"" ++ String.mk (csvDupQuotes s.data) ++ "\""
  else s

/-- Source `headers = Object.keys(rows[0])`. -/
def csvHeaders : List CsvRow → List String
  | [] => []
  | r :: _ => r.map Prod.fst

/-- Source `exportCSV` serialization core: `if (!rows.length) return;` then
`[headers.join(","), ...rows.map((r) => headers.map((h) =>
escape(r[h])).join(","))].join("\n")`.  The produced document is returned
(`none` = no file produced); the Blob/anchor download side effect is outside
the data model. -/
def exportCSV (rows : List CsvRow) : Option String :=
  if rows.isEmpty then none
  else
    some (String.intercalate "\n"
      ((String.intercalate "," (csvHeaders rows)) ::
        rows.map fun r => String.intercalate ","
          ((csvHeaders rows).map fun h =>
            csvEscape (csvStringOf (List.lookup h r)))))

/-- Escaping rule as worded by the claim: a value containing a comma,
double-quote, or newline is wrapped in double quotes with internal double
quotes doubled. -/
def specEscape (s : String) : String :=
  if ',' ∈ s.data ∨ '"' ∈ s.data ∨ '\n' ∈ s.data then
    "\"" ++
      String.mk (s.data.flatMap fun c => if c = '"' then ['"', '"'] else [c])
      ++ "\""
  else s

/-- CSV document as worded by the claim: first line the field names of the
first record (fixing column order), then one line per record with values in
that order, stringified and escaped; no output for the empty sequence. -/
def specCSV (rows : List CsvRow) : Option String :=
  match rows with
  | [] => none
  | r0 :: _ =>
      some (String.intercalate "\n"
        ((String.intercalate "," (r0.map Prod.fst)) ::
          rows.map fun r => String.intercalate ","
            ((r0.map Prod.fst).map fun h =>
              specEscape (csvStringOf (List.lookup h r)))))

/-- Helper: the char-recursive quote doubling is the flat-map form. -/
theorem csvDupQuotes_eq_flatMap (l : List Char) :
    csvDupQuotes l = l.flatMap fun c => if c = '"' then ['"', '"'] else [c] := by
  induction l with
  | nil => rfl
  | cons c t ih =>
      by_cases hc : c = '"'
      · simp [csvDupQuotes, hc, ih]
      · simp [csvDupQuotes, hc, ih]

/-- Helper: the source regex test agrees with the claim's membership
wording. -/
theorem csvMustQuote_iff (s : String) :
    csvMustQuote s = true ↔ (',' ∈ s.data ∨ '"' ∈ s.data ∨ '\n' ∈ s.data) := by
  simp only [csvMustQuote, List.any_eq_true, Bool.or_eq_true, beq_iff_eq]
  constructor
  · rintro ⟨c, hc, (rfl | rfl) | rfl⟩
    · exact Or.inl hc
    · exact Or.inr (Or.inl hc)
    · exact Or.inr (Or.inr hc)
  · rintro (h | h | h)
    · exact ⟨',', h, by simp⟩
    · exact ⟨'"', h, by simp⟩
    · exact ⟨'\n', h, by simp⟩

/-- Helper: the source escape equals the claim-worded escape. -/
theorem csvEscape_eq_specEscape (s : String) : csvEscape s = specEscape s := by
  unfold csvEscape specEscape
  by_cases h : (',' ∈ s.data ∨ '"' ∈ s.data ∨ '\n' ∈ s.data)
  · rw [if_pos ((csvMustQuote_iff s).mpr h), if_pos h, csvDupQuotes_eq_flatMap]
  · rw [if_neg fun hb => h ((csvMustQuote_iff s).mp hb), if_neg h]

/-- Claim C9: `exportCSV` produces exactly the claim-worded CSV document —
header line from the first record's field names, one line per record in that
column order, comma/quote/newline values quoted with quotes doubled,
missing values empty, numbers stringified — is a no-op producing no output
on the empty sequence, and on `[{a: 1, b: "x,y"}]` produces the document
`a,b` newline `1,"x,y"`. -/
theorem exportCSV_spec :
    exportCSV [] = none ∧
    (∀ rows : List CsvRow, exportCSV rows = specCSV rows) ∧
    exportCSV [[("a", CsvValue.num 1), ("b", CsvValue.str "x,y")]] =
      some "a,b\n1,\"x,y\"" := by
  refine ⟨rfl, ?_, by decide⟩
  intro rows
  cases rows with
  | nil => rfl
  | cons r0 rest =>
      simp only [exportCSV, specCSV, List.isEmpty_cons, Bool.false_eq_true,
        if_false, csvHeaders, Option.some.injEq]
      have he : ∀ r : CsvRow, ∀ h : String,
          csvEscape (csvStringOf (List.lookup h r)) =
            specEscape (csvStringOf (List.lookup h r)) := fun r h =>
        csvEscape_eq_specEscape _
      congr 1
      refine congrArg _ ?_
      refine List.map_congr_left ?_
      intro r _
      exact congrArg _ (List.map_congr_left fun h _ => he r h)

/-- Source `handleSend` of `MessagesPage`:
`const text = value.trim(); if (!text || !current) return;
onSend(current.id, text);` — `current` is the active-conversation
resolution and `onSend` is `sendMessage`; the fresh message id and
timestamp are parameters. -/
def handleSend (convs : List Conversation) (sel : Option String)
    (draft : String) (newId now : String) : List Conversation :=
  let text := jsTrim draft
  if text = "" then convs
  else
    match activeConversation convs sel with
    | none => convs
    | some c => sendMessage convs c.id text newId now

/-- Claim C10: the composer's send handler trims the draft and is a
complete no-op when the trimmed text is empty or no conversation resolves
as current; otherwise it sends the trimmed (hence non-empty) text, so the
non-empty-body invariant on all chat messages is preserved. -/
theorem handleSend_spec (convs : List Conversation) (sel : Option String)
    (draft newId now : String) :
    (jsTrim draft = "" → handleSend convs sel draft newId now = convs) ∧
    (activeConversation convs sel = none →
      handleSend convs sel draft newId now = convs) ∧
    (jsTrim draft ≠ "" → ∀ c0 : Conversation,
      activeConversation convs sel = some c0 →
      handleSend convs sel draft newId now =
        sendMessage convs c0.id (jsTrim draft) newId now) ∧
    ((∀ c ∈ convs, ∀ m ∈ c.messages, m.body ≠ "") →
      ∀ c' ∈ handleSend convs sel draft newId now, ∀ m ∈ c'.messages,
        m.body ≠ "") := by
  have h1 : jsTrim draft = "" → handleSend convs sel draft newId now = convs :=
    fun h => by simp [handleSend, h]
  have h2 : activeConversation convs sel = none →
      handleSend convs sel draft newId now = convs := by
    intro h
    unfold handleSend
    by_cases ht : jsTrim draft = ""
    · simp [ht]
    · simp [ht, h]
  have h3 : jsTrim draft ≠ "" → ∀ c0 : Conversation,
      activeConversation convs sel = some c0 →
      handleSend convs sel draft newId now =
        sendMessage convs c0.id (jsTrim draft) newId now := by
    intro ht c0 hc0
    simp [handleSend, ht, hc0]
  refine ⟨h1, h2, h3, ?_⟩
  intro hinv c' hc' m hm
  by_cases ht : jsTrim draft = ""
  · rw [h1 ht] at hc'
    exact hinv c' hc' m hm
  · cases hact : activeConversation convs sel with
    | none =>
        rw [h2 hact] at hc'
        exact hinv c' hc' m hm
    | some c0 =>
        rw [h3 ht c0 hact] at hc'
        rw [sendMessage, List.mem_map] at hc'
        obtain ⟨c, hc, hmap⟩ := hc'
        by_cases hid : c.id = c0.id
        · rw [if_pos hid] at hmap
          subst hmap
          simp only [List.mem_append, List.mem_singleton] at hm
          rcases hm with hm | hm
          · exact hinv c hc m hm
          · subst hm
            exact ht
        · rw [if_neg hid] at hmap
          subst hmap
          exact hinv c hc m hm

/-- Witness for C10: a whitespace-only draft is a no-op on the seed
conversations; with no conversations nothing is appended; a real draft to
the selected `C-102` sends its trimmed text. -/
theorem handleSend_spec_witness :
    jsTrim "   " = "" ∧
    handleSend (seedConversations "t1" "t2" "t3" "t4" "t5") (some "C-101")
      "   " "z1" "t9" = seedConversations "t1" "t2" "t3" "t4" "t5" ∧
    activeConversation [] (some "C-101") = none ∧
    handleSend [] (some "C-101") "Hi" "z1" "t9" = [] ∧
    jsTrim " Hi " ≠ "" ∧
    activeConversation (seedConversations "t1" "t2" "t3" "t4" "t5")
      (some "C-102") = some (seedConv102 "t2" "t5") ∧
    handleSend (seedConversations "t1" "t2" "t3" "t4" "t5") (some "C-102")
        " Hi " "z1" "t9" =
      sendMessage (seedConversations "t1" "t2" "t3" "t4" "t5")
        (seedConv102 "t2" "t5").id (jsTrim " Hi ") "z1" "t9" :=
  ⟨by decide,
    (handleSend_spec (seedConversations "t1" "t2" "t3" "t4" "t5")
      (some "C-101") "   " "z1" "t9").1 (by decide),
    by decide,
    (handleSend_spec [] (some "C-101") "Hi" "z1" "t9").2.1 (by decide),
    by decide,
    by decide,
    (handleSend_spec (seedConversations "t1" "t2" "t3" "t4" "t5")
      (some "C-102") " Hi " "z1" "t9").2.2.1 (by decide)
      (seedConv102 "t2" "t5") (by decide)⟩
